import Mathlib

/-!
Shallow embedding of cellpy's step-classification / summary engine
(`cellpy/readers/cellreader.py`) and of the incremental-capacity (dQ/dV)
pipeline (`cellpy/utils/ica.py`), together with theorems settling the
spec claims about them.

Numeric model: exact rationals (`ℚ`) stand in for Python/numpy floats.
`Option ℚ` models values that can be NaN or non-finite (`none` = NaN/inf);
comments at each definition say where this matters.  Tables (pandas
DataFrames) are modelled as Lean lists of rows, in row order.
-/

namespace Cellpy

/-- One sample of the time-series table (`dfdata` in the source): the
named numeric columns the engine reads (`Cycle_Index`, `Step_Index`,
`Data_Point`, `Step_Time`, `Test_Time`, `Current`, `Voltage`,
`Charge_Capacity`, `Discharge_Capacity`, `Internal_Resistance`). -/
structure Row where
  cycle : ℤ
  step : ℤ
  dataPoint : ℤ
  stepTime : ℚ
  testTime : ℚ
  current : ℚ
  voltage : ℚ
  charge : ℚ
  discharge : ℚ
  ir : ℚ
deriving DecidableEq, Repr, Inhabited

/-- `CellpyData._percentage_change(x0, x1, default_zero=True)`:
returns `(x1 - x0) * 100 / x0`; when `x0 == 0` it starts from the raw
difference `x1 - x0` and, if that difference is non-zero and
`default_zero` is set, zeroes it out. -/
def percentage_change (x0 x1 : ℚ) (default_zero : Bool) : ℚ :=
  if x0 = 0 then
    let difference := x1 - x0
    if difference ≠ 0 ∧ default_zero then 0 else difference
  else (x1 - x0) * 100 / x0

/-- `CellpyData._fractional_change(x0, x1, default_zero=False)`:
returns `x0 / x1`; when `x1 == 0` it returns NaN (modelled as `none`),
or `0.0` when `default_zero` is set. -/
def fractional_change (x0 x1 : ℚ) (default_zero : Bool) : Option ℚ :=
  if x1 = 0 then
    if default_zero then some 0 else none
  else some (x0 / x1)

/-- pandas `Series.unique()`: the distinct values of a list, keeping the
first occurrence of each, in order of first appearance. -/
def pdUnique {α : Type} [DecidableEq α] : List α → List α
  | [] => []
  | x :: xs => x :: pdUnique (xs.filter (fun y => decide (y ≠ x)))
termination_by l => l.length
decreasing_by
  simp only [List.length_cons]
  exact Nat.lt_succ_of_le (List.length_filter_le _ _)

/-! ### Step Feature Extractor (`CellpyData._extract_step_values`) -/

/-- pandas `Series.mean()`: sum divided by length (length `0` never
occurs where this is used; `ℚ` division by `0` yields `0` there). -/
def listMean (l : List ℚ) : ℚ := l.sum / l.length

/-- The square of pandas `Series.std()` (sample variance, `ddof = 1`):
`Σ (x - mean)² / (n - 1)`.  The square root of a rational is
irrational in general, so the embedding stores the variance; no
classification rule and no claim reads this field, only its
NaN-ness (`none`, for slices of a single sample) is observable. -/
def sampleVarSq (l : List ℚ) : Option ℚ :=
  if l.length ≤ 1 then none
  else
    let m := listMean l
    some ((l.map (fun x => (x - m) ^ 2)).sum / ((l.length : ℚ) - 1))

/-- pandas `Series.max()` / `Series.min()` on a non-empty slice
(`getD 0` is unreachable junk for the empty list). -/
def listMax (l : List ℚ) : ℚ := (l.max?).getD 0

/-- See `listMax`. -/
def listMin (l : List ℚ) : ℚ := (l.min?).getD 0

/-- A time-series row together with the transient
`IR_pct_change` column added by `create_step_table` before grouping
(`df[ir_change] = df[ir].pct_change()`); `none` models the NaN of the
first row and the non-finite values a zero previous sample produces. -/
abbrev AnnRow := Row × Option ℚ

/-- pandas `Series.pct_change()` over the internal-resistance column:
entry `i` is `x[i] / x[i-1] - 1`; the first entry is NaN, and a zero
previous value gives a non-finite result (both modelled as `none`). -/
def pct_change_col : Option ℚ → List ℚ → List (Option ℚ)
  | _, [] => []
  | prev, x :: xs =>
    (match prev with
     | none => none
     | some p => if p = 0 then none else some (x / p - 1)) ::
      pct_change_col (some x) xs

/-- The fixed vector of statistical descriptors `_extract_step_values`
computes for one `(cycle, step)` slice.  Field order follows the
source's output list.  `I_std` (etc.) hold the **square** of the pandas
sample standard deviation, see `sampleVarSq`; the rates are `none` when
the step duration is zero (NaN, `fractional_change` with
`default_zero=False`). -/
structure StepValues where
  I_avr : ℚ
  I_std : Option ℚ
  I_max : ℚ
  I_min : ℚ
  I_start : ℚ
  I_end : ℚ
  I_delta : ℚ
  I_rate : Option ℚ
  V_avr : ℚ
  V_std : Option ℚ
  V_max : ℚ
  V_min : ℚ
  V_start : ℚ
  V_end : ℚ
  V_delta : ℚ
  V_rate : Option ℚ
  C_avr : ℚ
  C_std : Option ℚ
  C_max : ℚ
  C_min : ℚ
  C_start : ℚ
  C_end : ℚ
  C_delta : ℚ
  C_rate : Option ℚ
  D_avr : ℚ
  D_std : Option ℚ
  D_max : ℚ
  D_min : ℚ
  D_start : ℚ
  D_end : ℚ
  D_delta : ℚ
  D_rate : Option ℚ
  IR : ℚ
  IR_pct_change : Option ℚ
deriving Inhabited

/-- `CellpyData._extract_step_values(f)` on one grouped `(cycle, step)`
slice.  `none` on the empty slice models the `iloc[0]` IndexError the
source would hit there (the caller's grouping guarantees non-empty
slices, so this is unreachable in `create_step_table`). -/
def extract_step_values : List AnnRow → Option StepValues
  | [] => none
  | hd :: tl =>
    let f := hd :: tl
    let last := f.getLast (by simp [f])
    let t_start := hd.1.stepTime
    let t_end := last.1.stepTime
    let t_delta := t_end - t_start
    let currents := f.map (fun r => r.1.current)
    let voltages := f.map (fun r => r.1.voltage)
    let charges := f.map (fun r => r.1.charge)
    let discharges := f.map (fun r => r.1.discharge)
    let I_delta := percentage_change hd.1.current last.1.current true
    let V_delta := percentage_change hd.1.voltage last.1.voltage true
    let C_delta := percentage_change hd.1.charge last.1.charge true
    let D_delta := percentage_change hd.1.discharge last.1.discharge true
    some
      { I_avr := listMean currents
        I_std := sampleVarSq currents
        I_max := listMax currents
        I_min := listMin currents
        I_start := hd.1.current
        I_end := last.1.current
        I_delta := I_delta
        I_rate := fractional_change I_delta t_delta false
        V_avr := listMean voltages
        V_std := sampleVarSq voltages
        V_max := listMax voltages
        V_min := listMin voltages
        V_start := hd.1.voltage
        V_end := last.1.voltage
        V_delta := V_delta
        V_rate := fractional_change V_delta t_delta false
        C_avr := listMean charges
        C_std := sampleVarSq charges
        C_max := listMax charges
        C_min := listMin charges
        C_start := hd.1.charge
        C_end := last.1.charge
        C_delta := C_delta
        C_rate := fractional_change C_delta t_delta false
        D_avr := listMean discharges
        D_std := sampleVarSq discharges
        D_max := listMax discharges
        D_min := listMin discharges
        D_start := hd.1.discharge
        D_end := last.1.discharge
        D_delta := D_delta
        D_rate := fractional_change D_delta t_delta false
        IR := hd.1.ir
        IR_pct_change := hd.2 }

/-! ### Step Classifier and Step Table Builder
(`CellpyData.create_step_table`) -/

/-- The fixed step-type taxonomy (the source's `list_of_step_types`). -/
inductive StepType
  | charge
  | discharge
  | cv_charge
  | cv_discharge
  | charge_cv
  | discharge_cv
  | ocvrlx_up
  | ocvrlx_down
  | ir
  | rest
  | not_known
deriving DecidableEq, Repr, Inhabited

/-- Classifier threshold constants exactly as the literals in
`create_step_table`. -/
def current_limit_value_hard : ℚ := 1 / 10 ^ 13

/-- `current_limit_value_soft = 0.00001` (defined but unused by the
active rules). -/
def current_limit_value_soft : ℚ := 1 / 10 ^ 5

def stable_current_limit_hard : ℚ := 2

def stable_current_limit_soft : ℚ := 4

def stable_voltage_limit_hard : ℚ := 2

def stable_voltage_limit_soft : ℚ := 4

def stable_charge_limit_hard : ℚ := 2

def stable_charge_limit_soft : ℚ := 5

/-- `ir_change_limit = 0.00001` (its mask is computed but the rule using
it is commented out in the source). -/
def ir_change_limit : ℚ := 1 / 10 ^ 5

/-- The boolean masks of `create_step_table`, transcribed row-wise (the
source computes them as vectorized comparisons over the step-table
columns; they are elementwise). -/
def mask_no_current_hard (v : StepValues) : Prop :=
  |v.I_max| + |v.I_min| < current_limit_value_hard

def mask_voltage_down (v : StepValues) : Prop :=
  v.V_delta < -stable_voltage_limit_hard

def mask_voltage_up (v : StepValues) : Prop :=
  v.V_delta > stable_voltage_limit_hard

def mask_voltage_stable (v : StepValues) : Prop :=
  |v.V_delta| < stable_voltage_limit_hard

def mask_current_down (v : StepValues) : Prop :=
  v.I_delta < -stable_current_limit_soft

def mask_current_negative (v : StepValues) : Prop :=
  v.I_avr < -current_limit_value_hard

def mask_current_positive (v : StepValues) : Prop :=
  v.I_avr > current_limit_value_hard

def mask_charge_changed (v : StepValues) : Prop :=
  |v.C_delta| > stable_charge_limit_hard

def mask_discharge_changed (v : StepValues) : Prop :=
  |v.D_delta| > stable_charge_limit_hard

def mask_no_change (v : StepValues) : Prop :=
  v.V_delta = 0 ∧ v.I_delta = 0 ∧ v.C_delta = 0 ∧ v.D_delta = 0

instance (v : StepValues) : Decidable (mask_no_current_hard v) := by
  unfold mask_no_current_hard; infer_instance

instance (v : StepValues) : Decidable (mask_voltage_down v) := by
  unfold mask_voltage_down; infer_instance

instance (v : StepValues) : Decidable (mask_voltage_up v) := by
  unfold mask_voltage_up; infer_instance

instance (v : StepValues) : Decidable (mask_voltage_stable v) := by
  unfold mask_voltage_stable; infer_instance

instance (v : StepValues) : Decidable (mask_current_down v) := by
  unfold mask_current_down; infer_instance

instance (v : StepValues) : Decidable (mask_current_negative v) := by
  unfold mask_current_negative; infer_instance

instance (v : StepValues) : Decidable (mask_current_positive v) := by
  unfold mask_current_positive; infer_instance

instance (v : StepValues) : Decidable (mask_charge_changed v) := by
  unfold mask_charge_changed; infer_instance

instance (v : StepValues) : Decidable (mask_discharge_changed v) := by
  unfold mask_discharge_changed; infer_instance

instance (v : StepValues) : Decidable (mask_no_change v) := by
  unfold mask_no_change; infer_instance

/-- The sequence of `df_steps.loc[mask, type] = label` assignments of
`create_step_table`, in source order; later assignments overwrite
earlier ones (last match wins).  The `type` column starts out as the
DataFrame's missing value (`none`, NaN): **no `not_known` fallback is
ever written**. -/
def assign_type (v : StepValues) : Option StepType :=
  let t : Option StepType := none
  let t := if mask_no_current_hard v ∧ mask_voltage_up v then
    some .ocvrlx_up else t
  let t := if mask_no_current_hard v ∧ mask_voltage_down v then
    some .ocvrlx_down else t
  let t := if mask_discharge_changed v ∧ mask_current_negative v then
    some .discharge else t
  let t := if mask_charge_changed v ∧ mask_current_positive v then
    some .charge else t
  let t := if mask_voltage_stable v ∧ mask_current_negative v ∧
      mask_current_down v then some .cv_discharge else t
  let t := if mask_voltage_stable v ∧ mask_current_positive v ∧
      mask_current_down v then some .cv_charge else t
  let t := if mask_no_change v then some .ir else t
  t

/-- One row of the Step Table: `cycle`, `step`, the 34 extracted
descriptors, the classified `type` (`none` = the NaN the column is
created with) and the never-written `info` column. -/
structure StepRow where
  cycle : ℤ
  step : ℤ
  values : StepValues
  type : Option StepType
  info : Option String
deriving Inhabited

/-- `CellpyData.create_step_table`: annotates the time series with the
transient `IR_pct_change` column, then iterates the distinct cycles in
order of appearance and, within each cycle, the distinct steps in order
of appearance, extracting one descriptor row per `(cycle, step)` group;
finally the classification masks assign the `type` column.  The
`filterMap` drops a group only when its slice is empty, which cannot
happen (each step value comes from a row of the slice). -/
def create_step_table (df : List Row) : List StepRow :=
  let anns : List AnnRow :=
    df.zip (pct_change_col none (df.map (fun r => r.ir)))
  (pdUnique (anns.map (fun r => r.1.cycle))).flatMap (fun cycle =>
    let df_cycle := anns.filter (fun r => decide (r.1.cycle = cycle))
    (pdUnique (df_cycle.map (fun r => r.1.step))).filterMap (fun step =>
      let df_step := df_cycle.filter (fun r => decide (r.1.step = step))
      (extract_step_values df_step).map (fun vals =>
        { cycle := cycle
          step := step
          values := vals
          type := assign_type vals
          info := none })))

/-! ### Summary Builder (`CellpyData._make_summary`)

The optional extractions (`find_ocv`, `find_ir`, `find_end_voltage`,
all defaulting to `False`), the `select_columns`/`sort_my_columns`
column reshuffling and the `convert_date` datetime-string column are
not modelled: no claim touches them and they do not alter the numeric
columns below. -/

/-- The `if not mass: mass = test.mass` guard at the top of
`_make_summary`: a missing (`none`) or zero mass argument is silently
replaced by the stored `test.mass`; any other value — negative
included — is used as given.  No mass validation exists in the
source and no `InvalidMassError` is defined anywhere in it. -/
def resolve_mass (massArg : Option ℚ) (testMass : ℚ) : ℚ :=
  match massArg with
  | none => testMass
  | some m => if m = 0 then testMass else m

/-- `CellpyData._select_last(dfdata)`: for each cycle number `j+1` up to
the maximum cycle, the largest data-point number among that cycle's
rows.  `none` models the `ValueError` python's `max()` raises on an
empty table or an absent cycle number. -/
def select_last_points (dfdata : List Row) : Option (List ℤ) :=
  match (dfdata.map (fun r => r.cycle)).max? with
  | none => none
  | some max_step =>
    (List.range max_step.toNat).mapM (fun j =>
      ((dfdata.filter (fun r =>
        decide (r.cycle = (j : ℤ) + 1))).map (fun r => r.dataPoint)).max?)

/-- Running sum (pandas `Series.cumsum()`). -/
def cumsum (l : List ℚ) : List ℚ := (l.scanl (· + ·) 0).drop 1

/-- The cycle-over-cycle capacity-loss column: the source inserts a copy
of the capacity column, then overwrites row `0` with `0.0` and row `j`
with `cap[j-1] - cap[j]`. -/
def loss_col (cap : List ℚ) : List ℚ :=
  (List.range cap.length).map (fun j =>
    if j = 0 then 0 else cap.getD (j - 1) 0 - cap.getD j 0)

/-- The Cycle Summary: the selected per-cycle rows plus the derived
columns of `_make_summary`, each in source (insertion) order.  The
coulombic-efficiency entries are `none` where pandas would produce a
non-finite value (zero discharge capacity). -/
structure Summary where
  rows : List Row
  discharge_cap : List ℚ
  charge_cap : List ℚ
  cum_charge_cap : List ℚ
  coul_eff : List (Option ℚ)
  coul_diff : List ℚ
  cum_coul_diff : List ℚ
  discharge_loss : List ℚ
  charge_loss : List ℚ
  cum_discharge_loss : List ℚ
  cum_charge_loss : List ℚ

/-- The derived-column block of `_make_summary`, applied to the selected
rows `dfsummary` (whose index has been reset to `0..n-1`):
`normalized capacity = raw_Ah * 1e6 / mass`, cumulative sums,
`coulombic efficiency = 100 * charge / discharge` (on the raw columns),
`coulombic difference = charge - discharge` (on the normalized
columns), and the two loss columns with their cumulative sums. -/
def summary_columns (dfsummary : List Row) (mass : ℚ) : Summary :=
  let discharge_cap := dfsummary.map (fun r => r.discharge * 1000000 / mass)
  let charge_cap := dfsummary.map (fun r => r.charge * 1000000 / mass)
  let coul_eff := dfsummary.map (fun r =>
    if r.discharge = 0 then none else some (100 * r.charge / r.discharge))
  let coul_diff := List.zipWith (· - ·) charge_cap discharge_cap
  let discharge_loss := loss_col discharge_cap
  let charge_loss := loss_col charge_cap
  { rows := dfsummary
    discharge_cap := discharge_cap
    charge_cap := charge_cap
    cum_charge_cap := cumsum charge_cap
    coul_eff := coul_eff
    coul_diff := coul_diff
    cum_coul_diff := cumsum coul_diff
    discharge_loss := discharge_loss
    charge_loss := charge_loss
    cum_discharge_loss := cumsum discharge_loss
    cum_charge_loss := cumsum charge_loss }

/-- `CellpyData._make_summary`: resolves the mass, selects one row per
cycle — by membership of the data-point number in the tester-provided
stats table (`use_cellpy_stat_file=True`, `statPoints` being that
table's data points) or by `_select_last` — and builds the derived
columns.  The only failure (`none`) is the `_select_last` crash on a
malformed table; **the mass is never validated**. -/
def make_summary (dfdata : List Row) (testMass : ℚ) (massArg : Option ℚ)
    (useStat : Bool) (statPoints : List ℤ) : Option Summary :=
  let mass := resolve_mass massArg testMass
  let sel : Option (List Row) :=
    if useStat then
      some (dfdata.filter (fun r => decide (r.dataPoint ∈ statPoints)))
    else
      (select_last_points dfdata).map (fun pts =>
        dfdata.filter (fun r => decide (r.dataPoint ∈ pts)))
  sel.map (fun dfsummary => summary_columns dfsummary mass)

/-! ### dQ/dV Converter (`cellpy/utils/ica.py`)

Numerical collaborators that are genuinely transcendental — scipy's
`savgol_filter` (least-squares convolution), `gaussian_filter1d`
(Gaussian kernel, `exp`) and `simps` (quadrature) — are taken as
*parameters* of the stage functions; every theorem below quantifies
over them, so nothing proved depends on their values.  The window
sizes / sigma the source derives for them are computed faithfully. -/

/-- `np.linspace a b n`: `n` evenly spaced points from `a` to `b`
inclusive. -/
def linspace (a b : ℚ) (n : ℕ) : List ℚ :=
  if n = 1 then [a]
  else (List.range n).map (fun i => a + (b - a) * i / ((n : ℚ) - 1))

/-- `np.ediff1d` / `np.diff`: consecutive differences. -/
def ediff1d (l : List ℚ) : List ℚ :=
  List.zipWith (fun a b => a - b) (l.drop 1) l

/-- Python `int()`: truncation toward zero. -/
def int_trunc (q : ℚ) : ℤ := if q ≥ 0 then ⌊q⌋ else ⌈q⌉

/-- Insertion step for sorting sample points by abscissa. -/
def insertByFst {α : Type} (p : ℚ × α) :
    List (ℚ × α) → List (ℚ × α)
  | [] => [p]
  | q :: qs => if p.1 ≤ q.1 then p :: q :: qs else q :: insertByFst p qs

/-- Sort sample points by abscissa: scipy's `interp1d` sorts its `x`
input (`assume_sorted=False` is the default used by the source). -/
def sortByFst {α : Type} (l : List (ℚ × α)) : List (ℚ × α) :=
  l.foldr insertByFst []

/-- Piecewise-linear evaluation over sorted sample points.  In the
source every query point lies inside the data range (the query grids
are `linspace`s between the data's own bounds); outside it this
extends the first/last segment, where scipy would raise instead —
that path is unreachable in the modelled calls. -/
def interpSegments : List (ℚ × ℚ) → ℚ → ℚ
  | [], _ => 0
  | [p], _ => p.2
  | p :: q :: rest, t =>
    if t ≤ q.1 then p.2 + (q.2 - p.2) * (t - p.1) / (q.1 - p.1)
    else interpSegments (q :: rest) t

/-- `scipy.interpolate.interp1d(x, y, kind="linear")` — the default
interpolation kind, the one the source uses. -/
def interp1d (xs ys : List ℚ) (t : ℚ) : ℚ :=
  interpSegments (sortByFst (xs.zip ys)) t

/-- `interp1d(..., bounds_error=False, fill_value=np.NaN)` over data
that may itself contain NaN (`none`): out-of-range queries yield NaN,
and a segment with a NaN endpoint yields NaN. -/
def interpNanSegments : List (ℚ × Option ℚ) → ℚ → Option ℚ
  | [], _ => none
  | [_], _ => none
  | p :: q :: rest, t =>
    if t < p.1 then none
    else if t ≤ q.1 then
      match p.2, q.2 with
      | some y1, some y2 =>
        some (y1 + (y2 - y1) * (t - p.1) / (q.1 - p.1))
      | _, _ => none
    else interpNanSegments (q :: rest) t

/-- See `interpNanSegments`. -/
def interp1d_nan (xs : List ℚ) (ys : List (Option ℚ)) (t : ℚ) : Option ℚ :=
  interpNanSegments (sortByFst (xs.zip ys)) t

/-- `np.median`: middle element (or mean of the two middles) of the
sorted list; `0` for the empty list is unreachable junk. -/
def listMedian (l : List ℚ) : ℚ :=
  let s := sortByFst (l.map (fun x => (x, ()))) |>.map (fun p => p.1)
  let n := s.length
  if n = 0 then 0
  else if n % 2 = 1 then s.getD (n / 2) 0
  else (s.getD (n / 2 - 1) 0 + s.getD (n / 2) 0) / 2

/-- `np.split(l, k)` where `l`'s length is an exact multiple of the
piece size `k` (the source guarantees this by cutting off the
remainder first): consecutive chunks of size `k`. -/
def chunksOf (k : ℕ) (l : List ℚ) : List (List ℚ) :=
  if _h : k = 0 ∨ l = [] then []
  else l.take k :: chunksOf k (l.drop k)
termination_by l.length
decreasing_by
  push_neg at _h
  have hk : 0 < k := Nat.pos_of_ne_zero _h.1
  have hl : 0 < l.length := List.length_pos.mpr _h.2
  simpa using Nat.sub_lt hl hk

/-- Python-level error outcomes of the Converter stages:
`nullData` is cellpy's `NullData` exception, `assertionError` the
`assert` in `set_data`, `typeError` the crash of running a stage
whose inputs a predecessor has not set (`None` field access). -/
inductive PyError
  | nullData
  | typeError
  | assertionError
deriving DecidableEq, Repr

/-- `ica.Converter.__init__`: the per-invocation state, with the
source's default configuration.  `incremental_capacity` entries are
`Option ℚ` because the fixed-voltage-range resampling writes NaN
(`none`) outside the data range; `incremental_capacity_unsmoothed`
is the source's `_incremental_capacity`.  `interpolation_method` is
the default `"linear"`, which is what `interp1d` implements. -/
structure Converter where
  capacity : Option (List ℚ) := none
  voltage : Option (List ℚ) := none
  capacity_preprocessed : Option (List ℚ) := none
  voltage_preprocessed : Option (List ℚ) := none
  capacity_inverted : Option (List ℚ) := none
  voltage_inverted : Option (List ℚ) := none
  incremental_capacity : Option (List (Option ℚ)) := none
  incremental_capacity_unsmoothed : Option (List (Option ℚ)) := none
  voltage_processed : Option (List ℚ) := none
  voltage_inverted_step : Option ℚ := none
  points_pr_split : ℕ := 10
  minimum_splits : ℕ := 3
  interpolation_method : String := "linear"
  increment_method : String := "diff"
  pre_smoothing : Bool := true
  smoothing : Bool := true
  post_smoothing : Bool := true
  savgol_filter_window_divisor_default : ℚ := 50
  savgol_filter_window_order : ℕ := 3
  voltage_fwhm : ℚ := 1 / 100
  gaussian_order : ℕ := 0
  gaussian_mode : String := "reflect"
  gaussian_cval : ℚ := 0
  gaussian_truncate : ℚ := 4
  normalise : Bool := true
  normalising_factor : Option ℚ := none
  d_capacity_mean : Option ℚ := none
  d_voltage_mean : Option ℚ := none
  len_capacity : Option ℕ := none
  len_voltage : Option ℕ := none
  min_capacity : Option ℚ := none
  max_capacity : Option ℚ := none
  start_capacity : Option ℚ := none
  end_capacity : Option ℚ := none
  number_of_points : Option ℕ := none
  std_err_median : Option ℚ := none
  std_err_mean : Option ℚ := none
  fixed_voltage_range : Option (ℚ × ℚ × ℕ) := none
  errors : List String := []

/-- `Converter.set_data(capacity, voltage)` for paired sequences (the
DataFrame branch just extracts the same two columns first).  The
**only** check here is `assert len(capacity) == len(voltage)`; the
data is stored whatever its length — the length ≤ 1 validation lives
in `inspect_data`. -/
def set_data (conv : Converter) (capacity voltage : List ℚ) :
    Except PyError Converter :=
  if capacity.length = voltage.length then
    .ok { conv with capacity := some capacity, voltage := some voltage }
  else .error .assertionError

/-- `Converter.inspect_data()`: raises `NullData` when data is absent
or either sequence has length ≤ 1; otherwise records bounds and
diagnostics.  `linreg` models the standard error scipy's
`stats.linregress` returns per chunk (it involves a square root). -/
def inspect_data (linreg : List ℚ → List ℚ → ℚ) (conv : Converter) :
    Except PyError Converter :=
  match conv.capacity, conv.voltage with
  | some capacity, some voltage =>
    let len_capacity := capacity.length
    let len_voltage := voltage.length
    if len_capacity ≤ 1 then .error .nullData
    else if len_voltage ≤ 1 then .error .nullData
    else
      let conv := { conv with
        len_capacity := some len_capacity
        len_voltage := some len_voltage
        d_capacity_mean := some (listMean (ediff1d capacity))
        d_voltage_mean := some (listMean (ediff1d voltage))
        min_capacity := some (listMin capacity)
        max_capacity := some (listMax capacity)
        start_capacity := some (capacity.headD 0)
        end_capacity := some (capacity.getLastD 0)
        number_of_points := some len_capacity }
      let splits := len_capacity / conv.points_pr_split
      let rest := len_capacity % conv.points_pr_split
      let conv :=
        if splits < conv.minimum_splits then
          { conv with errors := conv.errors ++ ["splitting: to few points"] }
        else
          let capChunks := chunksOf conv.points_pr_split
            (capacity.take (len_capacity - rest))
          let volChunks := chunksOf conv.points_pr_split
            (voltage.take (len_voltage - rest))
          let std_err := List.zipWith linreg capChunks volChunks
          { conv with
            std_err_median := some (listMedian std_err)
            std_err_mean := some (listMean std_err) }
      let conv :=
        if ¬ capacity.headD 0 = listMin capacity then
          { conv with errors := conv.errors ++ ["capacity: start<>min"] }
        else conv
      let conv :=
        if ¬ capacity.getLastD 0 = listMax capacity then
          { conv with errors := conv.errors ++ ["capacity: end<>max"] }
        else conv
      .ok { conv with normalising_factor := some (capacity.getLastD 0) }
  | _, _ => .error .nullData

/-- The Savitzky-Golay window length the source derives:
`int(points / min(50, points / 5))`, decremented if even, with floor
3 (`np.amax([3, w])`). -/
def savgol_window (divisor_default : ℚ) (points : ℕ) : ℕ :=
  let divisor : ℚ := min divisor_default ((points : ℚ) / 5)
  let window : ℤ := int_trunc ((points : ℚ) / divisor)
  let window : ℤ := if window % 2 = 0 then window - 1 else window
  (max 3 window).toNat

/-- `Converter.pre_process_data()`: resample the curve onto capacity
evenly spaced between its first and last sample (same point count),
interpolate voltage there, and optionally smooth it.  `sav` models
`scipy.signal.savgol_filter` (window, polyorder, data). -/
def pre_process_data (sav : ℕ → ℕ → List ℚ → List ℚ)
    (conv : Converter) : Except PyError Converter :=
  match conv.capacity, conv.voltage, conv.len_capacity with
  | some capacity, some voltage, some len_capacity =>
    let c1 := capacity.headD 0
    let c2 := capacity.getLastD 0
    let capacity_preprocessed := linspace c1 c2 len_capacity
    let voltage_preprocessed :=
      capacity_preprocessed.map (interp1d capacity voltage)
    let voltage_preprocessed :=
      if conv.pre_smoothing then
        sav (savgol_window conv.savgol_filter_window_divisor_default
          len_capacity) conv.savgol_filter_window_order
          voltage_preprocessed
      else voltage_preprocessed
    .ok { conv with
      capacity_preprocessed := some capacity_preprocessed
      voltage_preprocessed := some voltage_preprocessed }
  | _, _, _ => .error .typeError

/-- `Converter.increment_data()`: invert the curve to be
voltage-indexed (evenly spaced voltage grid between the preprocessed
voltage's bounds, same point count), interpolate capacity there,
optionally smooth, then — for the default `increment_method="diff"`
— take `dQ/dV = np.ediff1d(capacity) / voltage_step` and set the
output voltage axis to `voltage_inverted[1:] + 0.5 * step`. -/
def increment_data (sav : ℕ → ℕ → List ℚ → List ℚ)
    (conv : Converter) : Except PyError Converter :=
  match conv.voltage_preprocessed, conv.capacity_preprocessed with
  | some voltage_preprocessed, some capacity_preprocessed =>
    let len_voltage := voltage_preprocessed.length
    let v1 := listMin voltage_preprocessed
    let v2 := listMax voltage_preprocessed
    let voltage_inverted := linspace v1 v2 len_voltage
    let voltage_inverted_step :=
      (v2 - v1) / ((voltage_inverted.length : ℚ) - 1)
    let capacity_inverted :=
      voltage_inverted.map (interp1d voltage_preprocessed
        capacity_preprocessed)
    let capacity_inverted :=
      if conv.smoothing then
        sav (savgol_window conv.savgol_filter_window_divisor_default
          len_voltage) conv.savgol_filter_window_order capacity_inverted
      else capacity_inverted
    let conv := { conv with
      voltage_inverted := some voltage_inverted
      voltage_inverted_step := some voltage_inverted_step
      capacity_inverted := some capacity_inverted }
    if conv.increment_method = "diff" then
      let incremental_capacity := (ediff1d capacity_inverted).map
        (fun d => some (d / voltage_inverted_step))
      .ok { conv with
        incremental_capacity := some incremental_capacity
        incremental_capacity_unsmoothed := some incremental_capacity
        voltage_processed := some ((voltage_inverted.drop 1).map
          (fun x => x + (1 / 2) * voltage_inverted_step)) }
    else .ok conv
  | _, _ => .error .typeError

/-- `Converter.post_process_data()`.  Note the source's dataflow: the
Gaussian-smoothing branch writes `self.incremental_capacity`, but the
normalisation branch computes **and stores** from the *local*
`incremental_capacity` variable — the pre-smoothing array — so with
`normalise` on, the smoothed result is discarded.  `gauss` models
`gaussian_filter1d` (sigma, data); `quad` models `simps` (y, x). -/
def post_process_data (gauss : ℚ → List (Option ℚ) → List (Option ℚ))
    (quad : List (Option ℚ) → List ℚ → ℚ)
    (conv : Converter) : Except PyError Converter :=
  match conv.voltage_processed, conv.incremental_capacity,
      conv.voltage_inverted_step with
  | some voltage, some incremental_capacity, some voltage_step =>
    let conv1 :=
      if conv.post_smoothing then
        let points_fwhm := int_trunc (conv.voltage_fwhm / voltage_step)
        let sigma : ℚ := max 2 ((points_fwhm : ℚ) / 2)
        { conv with
          incremental_capacity := some (gauss sigma incremental_capacity) }
      else conv
    let step2 : Except PyError Converter :=
      if conv.normalise then
        match conv.normalising_factor with
        | none => .error .typeError
        | some nf =>
          let area := quad incremental_capacity voltage
          let scaled := incremental_capacity.map (fun y =>
            y.map (fun q => q * nf / |area|))
          .ok { conv1 with incremental_capacity := some scaled }
      else .ok conv1
    match step2 with
    | .error e => .error e
    | .ok conv2 =>
      match conv.fixed_voltage_range with
      | some (fv1, fv2, n) =>
        let v := linspace fv1 fv2 n
        let ic := conv2.incremental_capacity.getD []
        .ok { conv2 with
          incremental_capacity := some (v.map (interp1d_nan voltage ic))
          voltage_processed := some v }
      | none => .ok conv2
  | _, _, _ => .error .typeError

/-! ### Auxiliary definitions and concrete inputs used by the theorems -/

/-- The step duration `_extract_step_values` divides by: last step-time
minus first step-time of the slice (`0` for the empty slice, which
`extract_step_values` rejects anyway). -/
def step_duration : List AnnRow → ℚ
  | [] => 0
  | hd :: tl =>
    ((hd :: tl).getLast (List.cons_ne_nil hd tl)).1.stepTime - hd.1.stepTime

/-- A fresh `Converter()` (all defaults). -/
def initConverter : Converter := {}

/-- A two-sample step that matches no classification rule: zero
current throughout (so neither charge/discharge nor the cv rules
fire), voltage drifting up by `ΔV% = 1` — below the `ocvrlx`
threshold of `2` but non-zero, so the `ir` rule does not fire
either. -/
def rowA : Row :=
  { cycle := 1, step := 1, dataPoint := 1, stepTime := 0, testTime := 0
    current := 0, voltage := 1, charge := 0, discharge := 0, ir := 0 }

/-- Second sample of the unmatched step, see `rowA`. -/
def rowB : Row :=
  { cycle := 1, step := 1, dataPoint := 2, stepTime := 10, testTime := 10
    current := 0, voltage := 101 / 100, charge := 0, discharge := 0, ir := 0 }

/-- Time series whose single `(cycle, step)` group matches no rule. -/
def df_unmatched : List Row := [rowA, rowB]

/-- Two-cycle input for the Summary Builder claims (one selected row
per cycle, data points `1` and `2`). -/
def rowS1 : Row :=
  { cycle := 1, step := 1, dataPoint := 1, stepTime := 0, testTime := 0
    current := 1, voltage := 3, charge := 1, discharge := 2, ir := 0 }

/-- See `rowS1`. -/
def rowS2 : Row :=
  { cycle := 2, step := 1, dataPoint := 2, stepTime := 0, testTime := 1
    current := 1, voltage := 3, charge := 3, discharge := 4, ir := 0 }

/-- See `rowS1`. -/
def df_summary_input : List Row := [rowS1, rowS2]

/-- Two-sample step slice with `I_start = 2`, `ΔI% = 50` and duration
`10`, separating `delta/duration` from `start/duration`. -/
def rowR1 : Row :=
  { cycle := 1, step := 1, dataPoint := 1, stepTime := 0, testTime := 0
    current := 2, voltage := 4, charge := 0, discharge := 0, ir := 0 }

/-- See `rowR1`. -/
def rowR2 : Row :=
  { cycle := 1, step := 1, dataPoint := 2, stepTime := 10, testTime := 10
    current := 3, voltage := 4, charge := 0, discharge := 0, ir := 0 }

/-- Converter state about to run `increment_data`: preprocessed curve
`capacity = 2 * voltage` on the grid `[0, 1, 2]`, inner smoothing
disabled so the stage is exactly interpolation plus differentiation. -/
def conv4 : Converter :=
  { initConverter with
    voltage_preprocessed := some [0, 1, 2]
    capacity_preprocessed := some [0, 2, 4]
    smoothing := false }

/-- Converter state about to run `post_process_data` with the default
`normalise = True`. -/
def conv10 : Converter :=
  { initConverter with
    voltage_processed := some [0, 1]
    incremental_capacity := some [some 1]
    voltage_inverted_step := some 1
    normalising_factor := some 1 }

/-! ## Theorems

First the helper lemmas shared between claims, then one theorem per
claim (with its witness or counterexample). -/

theorem mem_pdUnique {α : Type} [DecidableEq α] (l : List α) (a : α) :
    a ∈ pdUnique l ↔ a ∈ l := by
  induction l using pdUnique.induct with
  | case1 => simp [pdUnique]
  | case2 x xs ih =>
    simp only [pdUnique, List.mem_cons, ih, List.mem_filter,
      decide_eq_true_eq]
    constructor
    · rintro (rfl | ⟨h, _⟩)
      · exact .inl rfl
      · exact .inr h
    · rintro (rfl | h)
      · exact .inl rfl
      · by_cases hx : a = x
        · exact .inl hx
        · exact .inr ⟨h, hx⟩

theorem pdUnique_nodup {α : Type} [DecidableEq α] (l : List α) :
    (pdUnique l).Nodup := by
  induction l using pdUnique.induct with
  | case1 => simp [pdUnique]
  | case2 x xs ih =>
    simp only [pdUnique, List.nodup_cons]
    refine ⟨fun hmem => ?_, ih⟩
    have := (mem_pdUnique _ _).mp hmem
    simp [List.mem_filter] at this

theorem pdUnique_toFinset {α : Type} [DecidableEq α] (l : List α) :
    (pdUnique l).toFinset = l.toFinset := by
  ext a
  simp [mem_pdUnique]

theorem pdUnique_length {α : Type} [DecidableEq α] (l : List α) :
    (pdUnique l).length = l.toFinset.card := by
  rw [← pdUnique_toFinset, List.toFinset_card_of_nodup (pdUnique_nodup l)]

theorem pct_change_col_length (prev : Option ℚ) (l : List ℚ) :
    (pct_change_col prev l).length = l.length := by
  induction l generalizing prev with
  | nil => rfl
  | cons x xs ih => simp [pct_change_col, ih]

/-! ### Claim C3 — percent-change helper -/

/-- C3 (counterexample): the claim says the helper used for the
per-step deltas returns the raw difference `x1 - x0` when `x0 = 0` and
`x1 ≠ x0`.  `_extract_step_values` calls it with `default_zero=True`,
and there `percentage_change 0 5 = 0`, not `5`. -/
theorem claim_C3_counterexample :
    percentage_change 0 5 true = 0 ∧ (0 : ℚ) ≠ 5 - 0 ∧
    (extract_step_values [(rowR1, none)]).map (fun v => v.C_delta) =
      some 0 := by
  refine ⟨by norm_num [percentage_change], by norm_num, ?_⟩
  simp [extract_step_values, percentage_change, rowR1]

/-- C3 (amended): `percentage_change x0 x1 default_zero` returns
`(x1 - x0) * 100 / x0` when `x0 ≠ 0`, and `0` when `x0 = 0` and
`x1 = x0`; but when `x0 = 0` and `x1 ≠ x0` it returns the raw
difference only with `default_zero = False` — with
`default_zero = True`, the setting used for every per-step delta, it
returns `0`.  In every case the result is a defined rational (total
function, no division-by-zero fault). -/
theorem claim_C3_percentage_change (x0 x1 : ℚ) (dz : Bool) :
    (x0 ≠ 0 → percentage_change x0 x1 dz = (x1 - x0) * 100 / x0) ∧
    (x0 = 0 → x1 = x0 → percentage_change x0 x1 dz = 0) ∧
    (x0 = 0 → x1 ≠ x0 →
      percentage_change x0 x1 dz = if dz then 0 else x1 - x0) := by
  refine ⟨fun h => ?_, fun h0 h1 => ?_, fun h0 h1 => ?_⟩
  · simp [percentage_change, h]
  · subst h0
    simp_all [percentage_change]
  · subst h0
    rcases dz with _ | _ <;> simp_all [percentage_change]

/-- C3 witness: the three branches at concrete inputs. -/
theorem claim_C3_witness :
    percentage_change 2 3 true = (3 - 2) * 100 / 2 ∧
    percentage_change 0 0 true = 0 ∧
    percentage_change 0 5 false = (if false then 0 else 5 - 0) :=
  ⟨(claim_C3_percentage_change 2 3 true).1 (by norm_num),
   (claim_C3_percentage_change 0 0 true).2.1 rfl rfl,
   (claim_C3_percentage_change 0 5 false).2.2 rfl (by norm_num)⟩

/-! ### Claim C9 — per-step rates -/

/-- C9 (counterexample): the claim says the rate is
`x_start / duration`.  On a slice with `I_start = 2`, `I_end = 3`,
duration `10`, the extractor yields `I_rate = 5` — namely
`ΔI% / duration = 50 / 10` — while `x_start / duration = 2 / 10`. -/
theorem claim_C9_counterexample :
    (extract_step_values [(rowR1, none), (rowR2, none)]).map
      (fun v => v.I_rate) = some (some 5) ∧ (5 : ℚ) ≠ 2 / 10 := by
  constructor
  · simp [extract_step_values, percentage_change, fractional_change,
      rowR1, rowR2]
    norm_num
  · norm_num

/-- C9 (amended): for every non-empty step slice the extractor
computes the rate of each quantity as `x_delta / duration` — the
*percent-change delta*, not `x_start` — where duration is last minus
first step-time; when the duration is `0` the rate is NaN (`none`),
because `_fractional_change` is called with its `default_zero=False`
default, and it would be `0` under the explicit `default_zero=True`
configuration. -/
theorem claim_C9_rate (l : List AnnRow) (v : StepValues)
    (h : extract_step_values l = some v) :
    (v.I_rate = fractional_change v.I_delta (step_duration l) false ∧
     v.V_rate = fractional_change v.V_delta (step_duration l) false ∧
     v.C_rate = fractional_change v.C_delta (step_duration l) false ∧
     v.D_rate = fractional_change v.D_delta (step_duration l) false) ∧
    (step_duration l = 0 → v.I_rate = none) ∧
    (step_duration l ≠ 0 →
      v.I_rate = some (v.I_delta / step_duration l)) ∧
    (∀ x : ℚ, fractional_change x 0 true = some 0) := by
  cases l with
  | nil => simp [extract_step_values] at h
  | cons hd tl =>
    have hv := (Option.some.inj ((by
      simpa [extract_step_values] using h.symm :
        some v = extract_step_values (hd :: tl)).symm))
    subst hv
    refine ⟨⟨rfl, rfl, rfl, rfl⟩, fun hd0 => ?_, fun hd0 => ?_,
      fun x => by simp [fractional_change]⟩
    · simp only [step_duration] at hd0
      simp [fractional_change, hd0]
    · simp only [step_duration] at hd0
      simp [fractional_change, step_duration, hd0]

/-- C9 witness: the amended theorem at the concrete slice of
`claim_C9_counterexample`. -/
theorem claim_C9_witness :
    ((extract_step_values [(rowR1, none), (rowR2, none)]).getD
      default).I_rate =
    some (((extract_step_values [(rowR1, none), (rowR2, none)]).getD
      default).I_delta /
        step_duration [(rowR1, none), (rowR2, none)]) :=
  (claim_C9_rate [(rowR1, none), (rowR2, none)]
    ((extract_step_values [(rowR1, none), (rowR2, none)]).getD default)
    rfl).2.2.1 (by simp [step_duration, rowR1, rowR2])

/-! ### Claim C8 — zero-delta steps classify as `ir` -/

/-- C8: a step whose extracted features have `I_max = 0`, `I_min = 0`
and all four deltas exactly `0` is assigned the type `ir`: the
`mask_no_change` assignment is the last classification pass, so it
wins over anything earlier. -/
theorem claim_C8_ir (v : StepValues) (_h1 : v.I_max = 0)
    (_h2 : v.I_min = 0) (h3 : v.V_delta = 0) (h4 : v.I_delta = 0)
    (h5 : v.C_delta = 0) (h6 : v.D_delta = 0) :
    assign_type v = some .ir := by
  have hnc : mask_no_change v := ⟨h3, h4, h5, h6⟩
  simp [assign_type, hnc]

/-- C8 witness: the all-zero feature vector. -/
theorem claim_C8_witness : assign_type default = some .ir :=
  claim_C8_ir default rfl rfl rfl rfl rfl rfl

/-! ### Claim C1 — the `type` column of the Step Table -/

/-- The classifier only ever assigns one of the seven labels of its
rules; a step matched by no rule keeps the column's initial missing
value (`none`), and in particular `not_known` is never assigned. -/
theorem assign_type_cases (v : StepValues) :
    assign_type v = none ∨ assign_type v ∈
      [some StepType.ocvrlx_up, some .ocvrlx_down, some .discharge,
       some .charge, some .cv_discharge, some .cv_charge, some .ir] := by
  unfold assign_type
  repeat' split
  all_goals simp

/-- Every row of the Step Table carries the classifier's result for
its own feature vector. -/
theorem create_step_table_type (df : List Row) (r : StepRow)
    (hr : r ∈ create_step_table df) :
    r.type = assign_type r.values := by
  simp only [create_step_table, List.mem_flatMap, List.mem_filterMap,
    Option.map_eq_some'] at hr
  obtain ⟨c, -, s, -, vals, -, rfl⟩ := hr
  rfl

/-- C1 (amended): every Step Table row's `type` is either the missing
value the column is created with (`none` — pandas NaN) or one of the
seven labels the rules assign; the taxonomy members `rest`,
`not_known`, `charge_cv` and `discharge_cv` never occur, and an
unmatched step keeps the missing value instead of receiving
`not_known`. -/
theorem claim_C1_type_column (df : List Row) (i : ℕ) :
    ((create_step_table df).getD i default).type = none ∨
    ((create_step_table df).getD i default).type ∈
      [some StepType.ocvrlx_up, some .ocvrlx_down, some .discharge,
       some .charge, some .cv_discharge, some .cv_charge, some .ir] := by
  by_cases h : i < (create_step_table df).length
  · have hmem : (create_step_table df).getD i default ∈
        create_step_table df := by
      rw [List.getD_eq_getElem _ _ h]
      exact List.getElem_mem h
    rw [create_step_table_type df _ hmem]
    exact assign_type_cases _
  · rw [List.getD_eq_default _ _ (le_of_not_lt h)]
    exact .inl rfl

/-- C1 (counterexample): on `df_unmatched` the single Step Table row
matches no rule and its `type` is the missing value `none`, not
`not_known` — there is no `not_known` fallback in the source. -/
theorem claim_C1_counterexample :
    (create_step_table df_unmatched).map (fun r => r.type) = [none] := by
  norm_num [create_step_table, df_unmatched, rowA, rowB, pct_change_col,
    pdUnique, extract_step_values, assign_type, mask_no_current_hard,
    mask_voltage_up, mask_voltage_down, mask_voltage_stable,
    mask_current_down, mask_current_negative, mask_current_positive,
    mask_charge_changed, mask_discharge_changed, mask_no_change,
    current_limit_value_hard, stable_voltage_limit_hard,
    stable_current_limit_soft, stable_charge_limit_hard,
    percentage_change, listMax, listMin, listMean, List.max?, List.min?,
    List.filter, List.getLast, List.filterMap, List.flatMap,
    Option.map]

/-! ### Claim C5 — curve-length validation -/

/-- C5 (counterexample): the claim says `set_data` raises
`NullDataError` when a sequence has length ≤ 1.  In the source
`set_data` performs no length validation beyond the equal-length
assert: both the empty pair and the one-point pair are accepted. -/
theorem claim_C5_counterexample :
    (set_data initConverter [] []).isOk = true ∧
    (set_data initConverter [1] [2]).isOk = true := by
  constructor <;> rfl

/-- C5 (amended): `set_data` accepts any equal-length pair (storing it
unchanged) and rejects only unequal lengths, via its `assert`; the
length ≤ 1 check lives in `inspect_data`, which raises `NullData`
(the source's actual exception class) on the stored data. -/
theorem claim_C5_set_data (conv : Converter) (cap volt : List ℚ)
    (linreg : List ℚ → List ℚ → ℚ) :
    (cap.length = volt.length →
      set_data conv cap volt =
        .ok { conv with capacity := some cap, voltage := some volt } ∧
      (cap.length ≤ 1 →
        inspect_data linreg
          { conv with capacity := some cap, voltage := some volt } =
          .error .nullData)) ∧
    (cap.length ≠ volt.length →
      set_data conv cap volt = .error .assertionError) := by
  refine ⟨fun heq => ⟨by simp [set_data, heq], fun hlen => ?_⟩,
    fun hne => by simp [set_data, hne]⟩
  simp only [inspect_data]
  rw [if_pos hlen]

/-- C5 witness: the empty pair is stored by `set_data` and only then
rejected by `inspect_data`. -/
theorem claim_C5_witness :
    set_data initConverter [] [] =
      .ok { initConverter with capacity := some [], voltage := some [] } ∧
    inspect_data (fun _ _ => 0)
      { initConverter with capacity := some [], voltage := some [] } =
      .error .nullData :=
  ⟨((claim_C5_set_data initConverter [] [] (fun _ _ => 0)).1 rfl).1,
   ((claim_C5_set_data initConverter [] [] (fun _ _ => 0)).1 rfl).2
     (by norm_num)⟩

/-! ### Claim C2 — mass validation -/

/-- C2 (counterexample): the claim says mass `0`, negative mass and
unset mass raise `InvalidMassError`.  The source defines no such
error: with mass `0` or unset, the stored test mass (`2` here) is
silently used; with mass `-5` the summary is produced with negative
normalized capacities.  Raw discharge capacities are `[2, 4]` Ah. -/
theorem claim_C2_counterexample :
    (make_summary df_summary_input 2 (some 0) true [1, 2]).map
      (fun s => s.discharge_cap) = some [1000000, 2000000] ∧
    (make_summary df_summary_input 2 none true [1, 2]).map
      (fun s => s.discharge_cap) = some [1000000, 2000000] ∧
    (make_summary df_summary_input 2 (some (-5)) true [1, 2]).map
      (fun s => s.discharge_cap) = some [-400000, -800000] := by
  refine ⟨?_, ?_, ?_⟩ <;>
    norm_num [make_summary, resolve_mass, summary_columns,
      df_summary_input, rowS1, rowS2, List.filter]

/-- C2 (amended): the Summary Builder performs no mass validation and
cannot raise `InvalidMassError` (no such exception exists in the
source): on the default stat-file path it always produces a summary,
a zero or unset mass argument is silently replaced by the stored test
mass, and any non-zero mass — negative included — is used as given in
the capacity normalization. -/
theorem claim_C2_no_mass_validation (df : List Row) (tm : ℚ)
    (m : Option ℚ) (pts : List ℤ) :
    (make_summary df tm m true pts).isSome = true ∧
    resolve_mass (some 0) tm = tm ∧
    resolve_mass none tm = tm ∧
    (∀ q : ℚ, q ≠ 0 → resolve_mass (some q) tm = q) := by
  refine ⟨by simp [make_summary], by simp [resolve_mass], rfl,
    fun q hq => by simp [resolve_mass, hq]⟩

/-- C2 witness: a negative mass is accepted and used as-is. -/
theorem claim_C2_witness :
    (make_summary df_summary_input 2 (some (-5)) true [1, 2]).isSome =
      true ∧
    resolve_mass (some (-5)) 2 = -5 :=
  ⟨(claim_C2_no_mass_validation df_summary_input 2 (some (-5))
      [1, 2]).1,
   (claim_C2_no_mass_validation df_summary_input 2 (some (-5))
      [1, 2]).2.2.2 (-5) (by norm_num)⟩

/-! ### Claim C6 — capacity-loss columns -/

/-- The loss column: entry `0` is `0`, and entry `n > 0` is
`cap[n-1] - cap[n]`. -/
theorem loss_col_getD (cap : List ℚ) (n : ℕ) :
    (loss_col cap).getD 0 0 = 0 ∧
    (0 < n → n < cap.length →
      (loss_col cap).getD n 0 = cap.getD (n - 1) 0 - cap.getD n 0) := by
  constructor
  · cases cap with
    | nil => rfl
    | cons a l => simp [loss_col, List.getD]
  · intro hn hlen
    have hlen' : n < (loss_col cap).length := by
      simpa [loss_col] using hlen
    rw [List.getD_eq_getElem _ _ hlen']
    simp only [loss_col, List.getElem_map, List.getElem_range]
    rw [if_neg (Nat.pos_iff_ne_zero.mp hn)]

/-- C6: in every Cycle Summary the builder produces,
`discharge_loss[0] = 0` and `discharge_loss[n] =
discharge[n-1] - discharge[n]` over the normalized discharge
capacities in row order, and likewise for charge; moreover a
time series with non-decreasing cycle numbers yields summary rows
with non-decreasing cycle numbers (row selection is a filter).  The
`mass ≠ 0` hypothesis keeps the exact-rational model honest: with a
zero resolved mass the real code produces non-finite capacities. -/
theorem claim_C6_loss (df : List Row) (tm : ℚ) (m : Option ℚ)
    (useStat : Bool) (pts : List ℤ) (s : Summary)
    (hs : make_summary df tm m useStat pts = some s)
    (_hm : resolve_mass m tm ≠ 0) :
    s.discharge_loss.getD 0 0 = 0 ∧
    (∀ n, 0 < n → n < s.discharge_cap.length →
      s.discharge_loss.getD n 0 =
        s.discharge_cap.getD (n - 1) 0 - s.discharge_cap.getD n 0) ∧
    s.charge_loss.getD 0 0 = 0 ∧
    (∀ n, 0 < n → n < s.charge_cap.length →
      s.charge_loss.getD n 0 =
        s.charge_cap.getD (n - 1) 0 - s.charge_cap.getD n 0) ∧
    (List.Pairwise (· ≤ ·) (df.map (fun r => r.cycle)) →
      List.Pairwise (· ≤ ·) (s.rows.map (fun r => r.cycle))) := by
  have hsel : ∃ p : Row → Bool,
      s = summary_columns (df.filter p) (resolve_mass m tm) := by
    cases useStat with
    | true =>
      exact ⟨_, (Option.some.inj hs).symm⟩
    | false =>
      simp only [make_summary, Bool.false_eq_true, if_false,
        Option.map_map, Option.map_eq_some'] at hs
      obtain ⟨pts', -, heq⟩ := hs
      exact ⟨_, heq.symm⟩
  obtain ⟨p, rfl⟩ := hsel
  simp only [summary_columns]
  refine ⟨(loss_col_getD _ 0).1, fun n hn hlen => ?_,
    (loss_col_getD _ 0).1, fun n hn hlen => ?_, fun hmono => ?_⟩
  · exact (loss_col_getD _ n).2 hn hlen
  · exact (loss_col_getD _ n).2 hn hlen
  · exact hmono.sublist ((List.filter_sublist df).map _)

/-- C6 witness: the loss relation at row `1` of the summary of
`df_summary_input`. -/
theorem claim_C6_witness :
    (summary_columns (df_summary_input.filter
        (fun r => decide (r.dataPoint ∈ ([1, 2] : List ℤ))))
      (resolve_mass (some 2) 2)).discharge_loss.getD 1 0 =
    (summary_columns (df_summary_input.filter
        (fun r => decide (r.dataPoint ∈ ([1, 2] : List ℤ))))
      (resolve_mass (some 2) 2)).discharge_cap.getD 0 0 -
    (summary_columns (df_summary_input.filter
        (fun r => decide (r.dataPoint ∈ ([1, 2] : List ℤ))))
      (resolve_mass (some 2) 2)).discharge_cap.getD 1 0 :=
  (claim_C6_loss df_summary_input 2 (some 2) true [1, 2] _ rfl
      (by norm_num [resolve_mass])).2.1 1 (by norm_num)
    (by norm_num [summary_columns, df_summary_input, rowS1, rowS2,
      List.filter])

/-! ### Claim C10 — normalisation overwrites the smoothed result -/

/-- C10: in `post_process_data`, the area normalisation is computed
from and applied to the *local* (pre-smoothing) incremental-capacity
array, overwriting whatever the Gaussian branch stored: with
`normalise` on, the final `incremental_capacity` and
`voltage_processed` are the same with `post_smoothing` on or off,
for every state and every smoothing/quadrature function. -/
theorem claim_C10_smoothing_discarded
    (gauss : ℚ → List (Option ℚ) → List (Option ℚ))
    (quad : List (Option ℚ) → List ℚ → ℚ) (conv : Converter)
    (h : conv.normalise = true) :
    (post_process_data gauss quad
        { conv with post_smoothing := true }).map
      (fun s => (s.incremental_capacity, s.voltage_processed)) =
    (post_process_data gauss quad
        { conv with post_smoothing := false }).map
      (fun s => (s.incremental_capacity, s.voltage_processed)) := by
  cases hvp : conv.voltage_processed <;>
  cases hic : conv.incremental_capacity <;>
  cases hst : conv.voltage_inverted_step <;>
  cases hnf : conv.normalising_factor <;>
  cases hfr : conv.fixed_voltage_range <;>
  simp [post_process_data, hvp, hic, hst, hnf, hfr, h, Except.map]

/-- C10 witness: the equality at a concrete converter state with the
identity as smoothing function and a constant quadrature. -/
theorem claim_C10_witness :
    (post_process_data (fun _ l => l) (fun _ _ => 1)
        { conv10 with post_smoothing := true }).map
      (fun s => (s.incremental_capacity, s.voltage_processed)) =
    (post_process_data (fun _ l => l) (fun _ _ => 1)
        { conv10 with post_smoothing := false }).map
      (fun s => (s.incremental_capacity, s.voltage_processed)) :=
  claim_C10_smoothing_discarded (fun _ l => l) (fun _ _ => 1) conv10 rfl

/-! ### Claim C4 — position of the dQ/dV output voltage axis -/

/-- C4: `increment_data` on the preprocessed ramp `capacity = 2·V`
over the voltage grid `[0, 1, 2]` (step `1`, inner smoothing off).
The derivative values are the claimed
`(capacity[i+1] - capacity[i]) / step = 2` with one fewer point than
the input, but the output voltage axis is `[3/2, 5/2]` — the source's
`voltage_inverted[1:] + 0.5 * step` — whereas the claimed midpoints
`voltage[i] + 0.5 * step` are `[1/2, 3/2]`: each derivative estimate
is placed one full step beyond its midpoint (the last one even lies
outside the voltage range). -/
theorem claim_C4_eval :
    (increment_data (fun _ _ l => l) conv4).map
      (fun s => (s.voltage_processed, s.incremental_capacity)) =
      .ok (some [3 / 2, 5 / 2], some [some 2, some 2]) ∧
    ((linspace 0 2 3).take 2).map (fun x => x + (1 / 2) * 1) =
      [1 / 2, 3 / 2] ∧
    ([3 / 2, 5 / 2] : List ℚ) ≠ [1 / 2, 3 / 2] := by
  refine ⟨?_, ?_, by norm_num⟩
  · norm_num [increment_data, conv4, initConverter, linspace, listMin,
      listMax, List.min?, List.max?, interp1d, sortByFst, insertByFst,
      interpSegments, ediff1d, List.range_succ, List.range_zero,
      Except.map, min_def, max_def,
      List.foldl, List.foldr, List.zip, List.zipWith]
  · norm_num [linspace, List.range_succ, List.range_zero]

/-! ### Claim C7 — one Step Table row per (cycle, step) pair -/

theorem length_filterMap_of_isSome {α β : Type} (f : α → Option β)
    (l : List α) (h : ∀ a ∈ l, (f a).isSome) :
    (l.filterMap f).length = l.length := by
  induction l with
  | nil => rfl
  | cons x xs ih =>
    rw [List.filterMap_cons]
    rcases hfx : f x with _ | b
    · exact absurd (h x (.head _)) (by simp [hfx])
    · simp only [List.length_cons, ih (fun a ha => h a (.tail _ ha))]

theorem list_toFinset_map {α β : Type} [DecidableEq α] [DecidableEq β]
    (l : List α) (f : α → β) :
    (l.map f).toFinset = l.toFinset.image f := by
  ext b
  simp

/-- Grouping a list by a first key and, within each group, counting
the distinct values of a second key, sums to the number of distinct
key pairs. -/
theorem sum_group_counts {α β γ : Type} [DecidableEq α]
    [DecidableEq β] [DecidableEq γ]
    (l : List α) (kc : α → β) (ks : α → γ) :
    ((pdUnique (l.map kc)).map (fun c =>
      (pdUnique ((l.filter
        (fun a => decide (kc a = c))).map ks)).length)).sum
    = (l.map (fun a => (kc a, ks a))).toFinset.card := by
  rw [← List.sum_toFinset _ (pdUnique_nodup _), pdUnique_toFinset]
  simp only [pdUnique_length]
  rw [list_toFinset_map l (fun a => (kc a, ks a)),
    Finset.card_eq_sum_card_image Prod.fst,
    Finset.image_image, list_toFinset_map l kc]
  refine Finset.sum_congr rfl (fun c _hc => ?_)
  rw [Finset.filter_image]
  have himg : (l.toFinset.filter (fun a => kc a = c)).image
      (fun a => (kc a, ks a)) =
      ((l.toFinset.filter (fun a => kc a = c)).image ks).image
        (fun s => (c, s)) := by
    rw [Finset.image_image]
    refine Finset.image_congr (fun a ha => ?_)
    rw [Finset.coe_filter] at ha
    simp only [Set.mem_setOf_eq] at ha
    simp [Function.comp, ha.2]
  rw [himg, Finset.card_image_of_injective _
    (fun x y hxy => by simpa using hxy)]
  congr 1
  rw [list_toFinset_map, List.toFinset_filter]
  congr 1
  simp

/-- The inner loop of `create_step_table` over one cycle's distinct
steps drops nothing: each distinct step value comes from a row of the
cycle slice, so its step slice is non-empty and
`extract_step_values` succeeds. -/
theorem step_group_length (anns : List AnnRow) (c : ℤ) :
    ((pdUnique ((anns.filter
        (fun r => decide (r.1.cycle = c))).map
          (fun r => r.1.step))).filterMap (fun step =>
      (extract_step_values ((anns.filter
          (fun r => decide (r.1.cycle = c))).filter
            (fun r' => decide (r'.1.step = step)))).map (fun vals =>
        ({ cycle := c, step := step, values := vals
           type := assign_type vals
           info := none } : StepRow)))).length =
    (pdUnique ((anns.filter
      (fun r => decide (r.1.cycle = c))).map
        (fun r => r.1.step))).length := by
  apply length_filterMap_of_isSome
  intro s hs
  rw [mem_pdUnique] at hs
  obtain ⟨r, hr, hrs⟩ := List.mem_map.mp hs
  have hrmem : r ∈ (anns.filter
      (fun r => decide (r.1.cycle = c))).filter
        (fun r' => decide (r'.1.step = s)) := by
    rw [List.mem_filter]
    exact ⟨hr, by simp [hrs]⟩
  cases hsl : (anns.filter
      (fun r => decide (r.1.cycle = c))).filter
        (fun r' => decide (r'.1.step = s)) with
  | nil => rw [hsl] at hrmem; cases hrmem
  | cons hd tl => simp [extract_step_values]

/-- C7: the Step Table built from any time series has exactly one row
per distinct `(cycle, step)` pair of the source: its length is the
number of those pairs. -/
theorem claim_C7_row_count (df : List Row) :
    (create_step_table df).length =
      (df.map (fun r => (r.cycle, r.step))).toFinset.card := by
  simp only [create_step_table]
  have hlen : (pct_change_col none (df.map (fun r => r.ir))).length =
      (df.map (fun r => r.ir)).length := pct_change_col_length _ _
  set anns := df.zip (pct_change_col none (df.map (fun r => r.ir)))
    with hanns
  have hfst : anns.map Prod.fst = df := by
    rw [hanns]
    exact List.map_fst_zip _ _ (by rw [hlen, List.length_map])
  rw [List.length_flatMap]
  simp only [Function.comp_def, step_group_length]
  rw [sum_group_counts anns (fun r => r.1.cycle) (fun r => r.1.step)]
  have hpairs : anns.map (fun r => (r.1.cycle, r.1.step)) =
      df.map (fun r => (r.cycle, r.step)) := by
    conv_rhs => rw [← hfst]
    rw [List.map_map]
    rfl
  rw [hpairs]

end Cellpy
